import Mathlib

/-!
# Verification of `irclog2html.py`

A shallow embedding of the IRC-log-to-HTML converter `src/irclog2html.py`
(classifier `LogParser.__iter__`, colour allocator `ColourChooser.choose`,
pipeline driver `log2html`, batch loop in `main`), together with theorems
settling the specification claims about it.

Modelling conventions:
* Python strings are `String` / `List Char`; the hand-compiled regexps below
  implement exactly the patterns in the source (`NICK_REGEXP`,
  `NICK_CHANGE_REGEXP`, `TIME_REGEXP`, `URL_REGEXP`), including lazy
  quantifiers, alternation order, and the fact that an unescaped `.` does not
  match a newline.
* Python floats in `ColourChooser.choose` are modelled as exact fractions of
  integers; every concrete value proved about below is far from a truncation
  boundary, so binary rounding cannot change any truncated channel value.
* Fallible code (a raised exception) is `Except Unit`: the `NameError` in the
  nick-change branch of `LogParser.__iter__` and the `assert` statements in
  `ColourChooser.choose` both surface as `.error ()`.
-/

/-! ## Character helpers -/

/-- The ASCII whitespace class matched by Python's regexp `\s`
(no `re.UNICODE` flag is set in the source). -/
def isPySpace (c : Char) : Bool :=
  c = ' ' || c = '\t' || c = '\n' || c = '\r' || c = '\x0b' || c = '\x0c'

/-- `line.rstrip('\r\n')` from `LogParser.__iter__` (line 97). -/
def rstripCRLF (s : String) : String :=
  String.mk ((s.data.reverse.dropWhile (fun c => c = '\r' || c = '\n')).reverse)

/-! ## `escape` (lines 403-406)

The source performs `replace('&','&amp;').replace('<','&lt;').replace('>','&gt;')`
and then drops characters with code point at most `0x1F`.  The three
replacements are of single, pairwise distinct characters and none of the
replacement texts contains a character that a later replacement rewrites at a
position that the earlier pass produced (the `&` introduced by `&lt;`/`&gt;`
is produced after the `&`-pass has run), so the sequential passes are
equivalent to one character-by-character substitution. -/

/-- One character of `escape`. -/
def escapeChar (c : Char) : List Char :=
  if c = '&' then "&amp;".data
  else if c = '<' then "&lt;".data
  else if c = '>' then "&gt;".data
  else [c]

/-- `escape(s)` (lines 403-406): entity-replace `&`, `<`, `>`, then strip
control characters (`ord(c) <= 0x1F`). -/
def escape (s : String) : String :=
  String.mk ((s.data.flatMap escapeChar).filter (fun c => 0x1F < c.toNat))

/-! ## `NICK_REGEXP = ^<(.*?)>\s` (line 88) -/

/-- Scanner for the lazy match `(.*?)>\s` after the opening `<`: find the
leftmost `>` that is immediately followed by a whitespace character; the
capture is everything before that `>` (a `.` cannot match `'\n'`), and the
returned remainder is everything after the whitespace character (the
whitespace belongs to the whole match, so `LogParser.__iter__`'s
`line[len(m.group(0)):]` drops it). -/
def nickSplit : List Char → Option (List Char × List Char)
  | c1 :: c2 :: rest =>
    if c1 = '>' && isPySpace c2 then some ([], rest)
    else if c1 = '\n' then none
    else
      match nickSplit (c2 :: rest) with
      | some (nk, t) => some (c1 :: nk, t)
      | none => none
  | _ => none

/-- Match of `NICK_REGEXP` at the start of the line, returning
`(nick, text-after-match)` as in lines 108-112 of the source. -/
def nickMatch (line : String) : Option (String × String) :=
  match line.data with
  | '<' :: rest =>
    match nickSplit rest with
    | some (nk, t) => some (String.mk nk, String.mk t)
    | none => none
  | _ => none

/-! ## `NICK_CHANGE_REGEXP = ^(?:\*\*\*|---) (.*?) (?:are|is) now known as (.*)` (lines 89-90) -/

/-- Scanner for the lazy `(.*?)` followed by `" (are|is) now known as "`:
the shortest capture (not containing `'\n'`) such that the rest of the line
continues with one of the two literal separators.  Returns
`(oldnick, tail-after-separator)`. -/
def kaSplit : List Char → Option (List Char × List Char)
  | [] => none
  | c :: rest =>
    if (" are now known as ".data).isPrefixOf (c :: rest) then
      some ([], (c :: rest).drop 18)
    else if (" is now known as ".data).isPrefixOf (c :: rest) then
      some ([], (c :: rest).drop 17)
    else if c = '\n' then none
    else
      match kaSplit rest with
      | some (o, nn) => some (c :: o, nn)
      | none => none

/-- Match of `NICK_CHANGE_REGEXP` against the line: a `"*** "` or `"--- "`
head, then the lazy old-nick capture, the `are`/`is` separator, and the
greedy `(.*)` new-nick capture (which stops at a newline). -/
def nickChangeMatch (line : String) : Option (String × String) :=
  let l := line.data
  let body : Option (List Char) :=
    if ("*** ".data).isPrefixOf l then some (l.drop 4)
    else if ("--- ".data).isPrefixOf l then some (l.drop 4)
    else none
  match body with
  | none => none
  | some rest =>
    match kaSplit rest with
    | none => none
    | some (o, nn) => some (String.mk o, String.mk (nn.takeWhile (fun c => c ≠ '\n')))

/-! ## `TIME_REGEXP` (lines 86-87): `^\[?((?:\d\d\d\d-\d\d-\d\dT)?\d\d:\d\d(:\d\d)?)\]? +` -/

/-- The optional ISO date part `(?:\d\d\d\d-\d\d-\d\dT)?`. -/
def dateMatch : List Char → Option (List Char × List Char)
  | a :: b :: c :: d :: '-' :: e :: f :: '-' :: g :: h :: 'T' :: rest =>
    if ([a, b, c, d, e, f, g, h]).all Char.isDigit then
      some ([a, b, c, d, '-', e, f, '-', g, h, 'T'], rest)
    else none
  | _ => none

/-- The mandatory `\d\d:\d\d` part. -/
def hhmmMatch : List Char → Option (List Char × List Char)
  | a :: b :: ':' :: c :: d :: rest =>
    if a.isDigit && b.isDigit && c.isDigit && d.isDigit then
      some ([a, b, ':', c, d], rest)
    else none
  | _ => none

/-- The optional `(:\d\d)?` seconds part. -/
def secMatch : List Char → List Char × List Char
  | ':' :: a :: b :: rest =>
    if a.isDigit && b.isDigit then ([':', a, b], rest)
    else ([], ':' :: a :: b :: rest)
  | l => ([], l)

/-- Timestamp stripping from `LogParser.__iter__` (lines 101-106): on a
match of `TIME_REGEXP`, the timestamp is group 1 and the line is shortened
past the whole match (brackets and the mandatory run of spaces included);
otherwise the time is `none` and the line is unchanged. -/
def stripTime (line : String) : Option String × String :=
  let l := line.data
  let l1 := if l.head? = some '[' then l.tail else l
  let dr := match dateMatch l1 with
    | some (d, r) => (d, r)
    | none => (([] : List Char), l1)
  match hhmmMatch dr.2 with
  | none => (none, line)
  | some (t, l3) =>
    let sr := secMatch l3
    let l5 := if sr.2.head? = some ']' then sr.2.tail else sr.2
    match l5 with
    | ' ' :: _ => (some (String.mk (dr.1 ++ t ++ sr.1)), String.mk (l5.dropWhile (fun c => c = ' ')))
    | _ => (none, line)

/-! ## Substring containment (Python's `in` operator, lines 116-119) -/

/-- `line.startswith(p)`: a structural prefix test (the core
`String.startsWith` is not used because it does not reduce in the kernel). -/
def startsWithStr (s p : String) : Bool :=
  p.data.isPrefixOf s.data

/-- `needle in hay` for strings, as used by the join/part conditions. -/
def hasSubstr (hay needle : List Char) : Bool :=
  needle.isPrefixOf hay ||
    match hay with
    | [] => false
    | _ :: t => hasSubstr t needle

/-! ## The event classifier (`LogParser.__iter__`, lines 108-130) -/

deriving instance DecidableEq for Except

/-- The event kinds yielded by `LogParser` with their payloads
(`COMMENT`, `ACTION`, `JOIN`, `PART`, `NICKCHANGE`, `SERVER`, `OTHER`). -/
inductive Event where
  | comment (nick text : String)
  | action (text : String)
  | join (text : String)
  | part (text : String)
  | nickchange (text oldnick newnick : String)
  | server (text : String)
  | other (text : String)
deriving DecidableEq, Repr

/-- Classification of one (timestamp-stripped) line, following the branch
structure of lines 108-130 verbatim.  The join and part conditions keep
Python's operator precedence: `A or B and C` is `A or (B and C)`.

The nick-change branch is `.error ()`: the source executes
`yield time, self.NICKCHANGE, (line, oldnick, newnick)` (line 126) but the
regexp groups were bound to `nick_old` and `nick_new` (lines 124-125), so the
unbound names `oldnick`/`newnick` raise a `NameError` there. -/
def classify (line : String) : Except Unit Event :=
  match nickMatch line with
  | some (nick, text) => .ok (.comment nick text)
  | none =>
    if startsWithStr line "* " then .ok (.action line)
    else if startsWithStr line "*** " || (startsWithStr line "--> " && hasSubstr line.data ("joined".data)) then
      .ok (.join line)
    else if startsWithStr line "*** " || (startsWithStr line "--> " && (hasSubstr line.data ("left".data) || hasSubstr line.data ("quit".data))) then
      .ok (.part line)
    else
      match nickChangeMatch line with
      | some _ => .error ()
      | none =>
        if startsWithStr line "*** " || startsWithStr line "--- " then .ok (.server line)
        else .ok (.other line)

/-! ## `ColourChooser` (lines 137-187)

`log2html` uses the module-level `html_rgb = ColourChooser().choose`
(line 333), i.e. the default configuration: `rgbmin = 240`, `rgbmax = 125`,
and the palette built from `a = 0.95`, `b = 0.5`.

The source computes with Python floats.  Here every value is kept as an
exact fraction of integers: a palette component is a pair `(p, q)` meaning
`p/q` (`0.95 = 19/20`, `0.5 = 1/2`), the brightness factor
`m = rgbmin + (rgbmax - rgbmin) * float(n - i) / n` is the exact fraction
`chooseMNum i n / chooseN n` and each channel `int(c * m)` is the exact
fraction `(p * chooseMNum i n) / (q * chooseN n)` truncated toward zero
(`Int.tdiv`, which is Python's `int()` on an exact quotient).  Every
concrete channel value appearing in the claims is far from a truncation
boundary, so exact arithmetic and 64-bit float arithmetic truncate to the
same integer there, and the bound claims have margins (maximum channel
value 228 of 255) far larger than any float rounding error. -/

/-- `rgbmin` of the default `ColourChooser` (line 140). -/
def rgbmin : Int := 240

/-- `rgbmax` of the default `ColourChooser` (line 140). -/
def rgbmax : Int := 125

/-- The default palette `[(a,b,b), (b,a,b), (b,b,a), (a,a,b), (a,b,a), (b,a,a)]`
with `a = 0.95` as the fraction `(19, 20)` and `b = 0.5` as `(1, 2)`
(line 162). -/
def rgbDefault : List ((Int × Int) × (Int × Int) × (Int × Int)) :=
  [((19, 20), (1, 2), (1, 2)), ((1, 2), (19, 20), (1, 2)), ((1, 2), (1, 2), (19, 20)),
   ((19, 20), (19, 20), (1, 2)), ((19, 20), (1, 2), (19, 20)), ((1, 2), (19, 20), (19, 20))]

/-- The `if n == 0: n = 1` guard of `choose` (lines 179-180). -/
def chooseN (n0 : Int) : Int :=
  if n0 = 0 then 1 else n0

/-- Numerator (over the denominator `chooseN n0`) of the brightness factor
`m = self.rgbmin + (self.rgbmax - self.rgbmin) * float(n - i) / n`
(line 182): `m = (rgbmin * n + (rgbmax - rgbmin) * (n - i)) / n` exactly. -/
def chooseMNum (i n0 : Int) : Int :=
  rgbmin * chooseN n0 + (rgbmax - rgbmin) * (chooseN n0 - i)

/-- The palette entry `r, g, b = self.rgb[i % len(self.rgb)]` (line 181);
Python's `%` on a positive modulus is `Int.emod`, so the index is in
`[0, 6)` and the fallback entry is never used. -/
def chooseRGB (i : Int) : (Int × Int) × (Int × Int) × (Int × Int) :=
  rgbDefault.getD (i % 6).toNat ((0, 1), (0, 1), (0, 1))

/-- One truncated channel `int(c * m)` (line 183) where the palette
component `c` is the fraction `p/q`: exactly
`trunc ((p * chooseMNum i n0) / (q * chooseN n0))`. -/
def channelOf (c : Int × Int) (i n0 : Int) : Int :=
  Int.tdiv (c.1 * chooseMNum i n0) (c.2 * chooseN n0)

/-- The three truncated channels `r, g, b = map(int, (r * m, g * m, b * m))`
(line 183). -/
def chooseChannels (i n0 : Int) : Int × Int × Int :=
  (channelOf (chooseRGB i).1 i n0,
   channelOf (chooseRGB i).2.1 i n0,
   channelOf (chooseRGB i).2.2 i n0)

/-- `'%02x'`: lowercase hexadecimal, zero-padded on the left to width 2
(numbers needing more than two digits keep all their digits). -/
def hex02 (v : Nat) : String :=
  String.mk (List.replicate (2 - (Nat.toDigits 16 v).length) '0' ++ Nat.toDigits 16 v)

/-- `ColourChooser.choose(i, n)` (lines 170-187).  The three
`assert 0 <= channel < 256` statements are modelled by the guard: an
out-of-range channel raises `AssertionError`, i.e. `.error ()`.  On success
the result is `'#%02x%02x%02x' % (r, g, b)`.  There is no clamping. -/
def choose (i n : Int) : Except Unit String :=
  if 0 ≤ (chooseChannels i n).1 ∧ (chooseChannels i n).1 < 256 ∧
     0 ≤ (chooseChannels i n).2.1 ∧ (chooseChannels i n).2.1 < 256 ∧
     0 ≤ (chooseChannels i n).2.2 ∧ (chooseChannels i n).2.2 < 256 then
    .ok ("#" ++ hex02 (chooseChannels i n).1.toNat ++
         hex02 (chooseChannels i n).2.1.toNat ++ hex02 (chooseChannels i n).2.2.toNat)
  else .error ()

/-! ## URL linkification (lines 324, 441, 453)

`URL_REGEXP = (http|https|ftp|gopher|news)://\S*` and the substitution
template `r'<a href="\0">\0</a>'`.  In a Python `re.sub` replacement
template `\0` is an octal escape denoting the NUL character `chr(0)`
(it is not a whole-match reference), so each matched URL is replaced by
the fixed string `<a href="\x00">\x00</a>`. -/

/-- The scheme alternatives in the order the regexp tries them. -/
def urlSchemes : List (List Char) :=
  ["http".data, "https".data, "ftp".data, "gopher".data, "news".data]

/-- Attempt to match `URL_REGEXP` at the head of `l`: a scheme (first
alternative that is also followed by `://` wins, mirroring the regexp's
backtracking), then `://`, then the greedy `\S*` run.  Returns the
remainder after the whole match. -/
def matchUrl (l : List Char) : Option (List Char) :=
  match urlSchemes.find? (fun sc => sc.isPrefixOf l && ("://".data).isPrefixOf (l.drop sc.length)) with
  | some sc => some ((l.drop (sc.length + 3)).dropWhile (fun c => !(isPySpace c)))
  | none => none

/-- What Python substitutes for each match of `URL_REGEXP`:
the template `<a href="\0">\0</a>` with `\0` read as `chr(0)`. -/
def urlRepl : List Char :=
  ("<a href=\"\x00\">\x00</a>").data

/-- Left-to-right scan of `re.sub`: at each position, if the regexp matches,
emit the replacement and continue after the match, otherwise keep the
character.  The fuel is the length of the list (each step consumes at least
one character). -/
def urlSubGo : Nat → List Char → List Char
  | 0, l => l
  | _ + 1, [] => []
  | fuel + 1, c :: rest =>
    match matchUrl (c :: rest) with
    | some rem => urlRepl ++ urlSubGo fuel rem
    | none => c :: urlSubGo fuel rest

/-- `URL_REGEXP.sub(r'<a href="\0">\0</a>', text)` (lines 441 and 453). -/
def urlSub (s : String) : String :=
  String.mk (urlSubGo s.data.length s.data)

/-- `text.replace('  ', '&nbsp;&nbsp;')` (line 442): left-to-right,
non-overlapping. -/
def nbspSubL : List Char → List Char
  | ' ' :: ' ' :: rest => ("&nbsp;&nbsp;").data ++ nbspSubL rest
  | c :: rest => c :: nbspSubL rest
  | [] => []

/-- String wrapper for the double-space substitution. -/
def nbspSub (s : String) : String :=
  String.mk (nbspSubL s.data)

/-! ## The pipeline driver `log2html` (lines 409-459)

The registry `colour_nick` is a Python dict; it is modelled as an
association list with unique keys (`regSet` overwrites in place, `regDel`
removes).  A rendered event is recorded as the formatter call `log2html`
makes for it, with the exact argument strings; the `formatter.head`/`foot`
calls that bracket the event loop touch neither the registry nor the
per-event text and are outside every claim, so they are not recorded. -/

/-- `colour_nick.get(nick)`. -/
def regGet (reg : List (String × String)) (k : String) : Option String :=
  (reg.find? (fun p => p.1 = k)).map (fun p => p.2)

/-- `colour_nick[k] = v`: overwrite the existing binding or append. -/
def regSet : List (String × String) → String → String → List (String × String)
  | [], k, v => [(k, v)]
  | (k', v') :: t, k, v => if k' = k then (k, v) :: t else (k', v') :: regSet t k v

/-- `del colour_nick[k]`. -/
def regDel : List (String × String) → String → List (String × String)
  | [], _ => []
  | (k', v') :: t, k => if k' = k then t else (k', v') :: regDel t k

/-- Lines 447-449: `if oldnick in colour_nick:
colour_nick[newnick] = colour_nick[oldnick]; del colour_nick[oldnick]`. -/
def renameReg (reg : List (String × String)) (old nw : String) : List (String × String) :=
  match regGet reg old with
  | some c => regDel (regSet reg nw c) old
  | none => reg

/-- `DEFAULT_COLOURS` (lines 336-342); `main` passes exactly these values
as the `colours` dict of `log2html`. -/
def DEFAULT_COLOURS : List (String × String) :=
  [("part", "#000099"), ("join", "#009900"), ("server", "#009900"),
   ("nickchange", "#009900"), ("action", "#CC00CC")]

/-- `colours[colour_map[what]]` (lines 420-422, 455-456): the highlight
colour key for each non-comment event kind in `colour_map`. -/
def colour_map : Event → Option String
  | .part _ => some "part"
  | .join _ => some "join"
  | .server _ => some "server"
  | .action _ => some "action"
  | .nickchange _ _ _ => some "nickchange"
  | _ => none

/-- A formatter call made by `log2html`: `formatter.nicktext(nick, text,
htmlcolour)` for comments, `formatter.servermsg(text)` for everything
else. -/
inductive RenderCall where
  | nicktext (nick text colour : String)
  | servermsg (text : String)
deriving DecidableEq, Repr

/-- The mutable state of one `log2html` run (lines 423-425) plus the trace
of formatter calls made so far. -/
structure PipeState where
  colour_nick : List (String × String)
  nickcount : Nat
  nickmax : Nat
  out : List RenderCall
deriving DecidableEq, Repr

/-- The initial state of `log2html`: empty registry, `nickcount = 0`,
`nickmax = 30` (lines 423-425). -/
def pipeInit : PipeState :=
  { colour_nick := [], nickcount := 0, nickmax := 30, out := [] }

/-- `nickmax` after a new nick is counted (lines 434-438): the counter was
already incremented, and `if nickcount >= nickmax: nickmax *= 2`. -/
def newNickmax (nickcount nickmax : Nat) : Nat :=
  if nickmax ≤ nickcount then nickmax * 2 else nickmax

/-- The comment branch's colour resolution (lines 431-439):
`htmlcolour = colour_nick.get(nick)` followed by `if not htmlcolour`
(Python truthiness: both a missing key and an empty string allocate), and on
allocation `nickcount += 1`, the possible doubling of `nickmax`, and
`htmlcolour = colour_nick[nick] = html_rgb(nickcount, nickmax)`.  A failed
assertion inside `choose` propagates. -/
def allocColour (s : PipeState) (nick : String) : Except Unit (String × PipeState) :=
  if (regGet s.colour_nick nick).getD "" = "" then
    match choose ((s.nickcount + 1 : Nat) : Int) ((newNickmax (s.nickcount + 1) s.nickmax : Nat) : Int) with
    | .error e => .error e
    | .ok colour =>
      .ok (colour,
        { colour_nick := regSet s.colour_nick nick colour
          nickcount := s.nickcount + 1
          nickmax := newNickmax (s.nickcount + 1) s.nickmax
          out := s.out })
  else .ok ((regGet s.colour_nick nick).getD "", s)

/-- The non-comment rendering path (lines 450-458): escape, linkify URLs,
wrap in a `<font>` tag when the kind has a default colour, then
`formatter.servermsg`. -/
def stepOther (s : PipeState) (ev : Event) (text0 : String) : PipeState :=
  { s with out := s.out ++ [.servermsg
      (match colour_map ev with
       | some key => "<font color=\"" ++ (regGet DEFAULT_COLOURS key).getD "" ++ "\">" ++
           urlSub (escape text0) ++ "</font>"
       | none => urlSub (escape text0))] }

/-- One iteration of the event loop of `log2html` (lines 428-458). -/
def step (s : PipeState) (ev : Event) : Except Unit PipeState :=
  match ev with
  | .comment nick0 text0 =>
    match allocColour s (escape nick0) with
    | .error e => .error e
    | .ok (colour, s1) =>
      .ok { s1 with out := s1.out ++
        [.nicktext (escape nick0) (nbspSub (urlSub (escape text0))) colour] }
  | .nickchange text0 old0 new0 =>
    .ok (stepOther { s with colour_nick := renameReg s.colour_nick (escape old0) (escape new0) }
      (.nickchange text0 old0 new0) text0)
  | .action t => .ok (stepOther s (.action t) t)
  | .join t => .ok (stepOther s (.join t) t)
  | .part t => .ok (stepOther s (.part t) t)
  | .server t => .ok (stepOther s (.server t) t)
  | .other t => .ok (stepOther s (.other t) t)

/-- One line of `LogParser.__iter__` (lines 96-106): strip the trailing
newline, skip empty lines, strip the timestamp, classify.  `log2html`
ignores the timestamp entirely, so only the classification is returned. -/
def parseLine (line0 : String) : Option (Except Unit Event) :=
  if rstripCRLF line0 = "" then none
  else some (classify (stripTime (rstripCRLF line0)).2)

/-- The event loop over a list of raw input lines; an exception raised by
the parser (the nick-change `NameError`) or by `choose` (an assertion)
aborts the run. -/
def runLines : PipeState → List String → Except Unit PipeState
  | s, [] => .ok s
  | s, l :: rest =>
    match parseLine l with
    | none => runLines s rest
    | some (.error e) => .error e
    | some (.ok ev) =>
      match step s ev with
      | .error e => .error e
      | .ok s1 => runLines s1 rest

/-- A whole `log2html` run from the initial state. -/
def processLines (lines : List String) : Except Unit PipeState :=
  runLines pipeInit lines

/-! ## The batch loop of `main` (lines 380-399)

`main` iterates over the filename arguments; for each it opens the input
file and the `filename + ".html"` output file, calling `sys.exit(...)` with
a message naming the file and the cause if either open fails — which
terminates the whole process.  The operating system's behaviour is a
parameter: `canRead f` / `canWrite f` say whether opening `f` for
reading / writing succeeds.  The result is the list of filenames that were
converted and the `sys.exit` outcome, if any. -/

/-- The two `sys.exit` messages of the batch loop, with the data they
carry (`progname` and the OS error text are environment-supplied and not
modelled). -/
inductive BatchExit where
  | cantRead (filename : String)
  | cantWrite (filename : String)
deriving DecidableEq, Repr

/-- The `for filename in args` loop of `main` (lines 380-399). -/
def convertBatch (canRead canWrite : String → Bool) : List String → List String × Option BatchExit
  | [] => ([], none)
  | f :: rest =>
    if !(canRead f) then ([], some (.cantRead f))
    else if !(canWrite (f ++ ".html")) then ([], some (.cantWrite (f ++ ".html")))
    else
      (f :: (convertBatch canRead canWrite rest).1, (convertBatch canRead canWrite rest).2)

/-! ## Helper lemmas -/

/-- A lowercase hexadecimal digit. -/
def isHexDigitLower (c : Char) : Bool :=
  ("0123456789abcdef".data).contains c

/-- `String.append` acts as append on the underlying character lists. -/
theorem data_append (s t : String) : (s ++ t).data = s.data ++ t.data := rfl

set_option maxRecDepth 4096 in
/-- `'%02x'` of a byte value is two lowercase hexadecimal digits. -/
theorem hex02_spec : ∀ v : Nat, v < 256 →
    (hex02 v).data.length = 2 ∧ (hex02 v).data.all isHexDigitLower = true := by
  decide

/-- The six palette entries are fractions `p/q` with `0 ≤ p/q ≤ 19/20`:
componentwise `0 ≤ p`, `0 < q`, `20 * p ≤ 19 * q`. -/
theorem rgbDefault_bounds : ∀ k : Nat, k < 6 →
    (0 ≤ (rgbDefault.getD k ((0, 1), (0, 1), (0, 1))).1.1 ∧
     0 < (rgbDefault.getD k ((0, 1), (0, 1), (0, 1))).1.2 ∧
     20 * (rgbDefault.getD k ((0, 1), (0, 1), (0, 1))).1.1 ≤
       19 * (rgbDefault.getD k ((0, 1), (0, 1), (0, 1))).1.2) ∧
    (0 ≤ (rgbDefault.getD k ((0, 1), (0, 1), (0, 1))).2.1.1 ∧
     0 < (rgbDefault.getD k ((0, 1), (0, 1), (0, 1))).2.1.2 ∧
     20 * (rgbDefault.getD k ((0, 1), (0, 1), (0, 1))).2.1.1 ≤
       19 * (rgbDefault.getD k ((0, 1), (0, 1), (0, 1))).2.1.2) ∧
    (0 ≤ (rgbDefault.getD k ((0, 1), (0, 1), (0, 1))).2.2.1 ∧
     0 < (rgbDefault.getD k ((0, 1), (0, 1), (0, 1))).2.2.2 ∧
     20 * (rgbDefault.getD k ((0, 1), (0, 1), (0, 1))).2.2.1 ≤
       19 * (rgbDefault.getD k ((0, 1), (0, 1), (0, 1))).2.2.2) := by
  decide

/-- A single channel is in `[0, 255]` whenever the palette component is a
fraction in `[0, 19/20]` and `0 ≤ i ≤ n` with `n ≥ 1`. -/
theorem channelOf_bounds (c : Int × Int) (i n : Int) (hp : 0 ≤ c.1) (hq : 0 < c.2)
    (hpq : 20 * c.1 ≤ 19 * c.2) (hi : 0 ≤ i) (hin : i ≤ n) (hn : 1 ≤ n) :
    0 ≤ channelOf c i n ∧ channelOf c i n ≤ 255 := by
  have hcn : chooseN n = n := if_neg (by omega)
  have hm : chooseMNum i n = 125 * n + 115 * i := by
    simp only [chooseMNum, rgbmin, rgbmax, hcn]; ring
  have hP : 0 ≤ c.1 * chooseMNum i n := by
    rw [hm]; exact mul_nonneg hp (by linarith)
  have hQ : 0 < c.2 * chooseN n := by
    rw [hcn]; exact mul_pos hq (by omega)
  have htd : Int.tdiv (c.1 * chooseMNum i n) (c.2 * chooseN n) =
      (c.1 * chooseMNum i n) / (c.2 * chooseN n) :=
    Int.tdiv_eq_ediv hP hQ.le
  have hle : c.1 * chooseMNum i n ≤ 228 * (c.2 * chooseN n) := by
    rw [hm, hcn]
    nlinarith [mul_nonneg hp (show (0 : ℤ) ≤ 115 * (n - i) by linarith),
      mul_nonneg (show (0 : ℤ) ≤ 19 * c.2 - 20 * c.1 by linarith)
        (show (0 : ℤ) ≤ 12 * n by linarith)]
  constructor
  · rw [channelOf, htd]; exact Int.ediv_nonneg hP hQ.le
  · rw [channelOf, htd]
    have h228 : (c.1 * chooseMNum i n) / (c.2 * chooseN n) ≤ 228 := by
      calc (c.1 * chooseMNum i n) / (c.2 * chooseN n)
          ≤ (228 * (c.2 * chooseN n)) / (c.2 * chooseN n) := Int.ediv_le_ediv hQ hle
        _ = 228 := Int.mul_ediv_cancel 228 (ne_of_gt hQ)
    omega

/-- For `0 ≤ i ≤ n` with `n ≥ 1`, every channel is in `[0, 255]`, the
assertions in `choose` pass, and `choose` returns its formatted string. -/
theorem choose_safe (i n : Int) (hi : 0 ≤ i) (hin : i ≤ n) (hn : 1 ≤ n) :
    (0 ≤ (chooseChannels i n).1 ∧ (chooseChannels i n).1 ≤ 255) ∧
    (0 ≤ (chooseChannels i n).2.1 ∧ (chooseChannels i n).2.1 ≤ 255) ∧
    (0 ≤ (chooseChannels i n).2.2 ∧ (chooseChannels i n).2.2 ≤ 255) ∧
    choose i n = .ok ("#" ++ hex02 (chooseChannels i n).1.toNat ++
      hex02 (chooseChannels i n).2.1.toNat ++ hex02 (chooseChannels i n).2.2.toNat) := by
  have hk : (i % 6).toNat < 6 := by
    have h1 : 0 ≤ i % 6 := Int.emod_nonneg i (by norm_num)
    have h2 : i % 6 < 6 := Int.emod_lt_of_pos i (by norm_num)
    omega
  obtain ⟨hr, hg, hb⟩ := rgbDefault_bounds (i % 6).toNat hk
  have h1 := channelOf_bounds (chooseRGB i).1 i n hr.1 hr.2.1 hr.2.2 hi hin hn
  have h2 := channelOf_bounds (chooseRGB i).2.1 i n hg.1 hg.2.1 hg.2.2 hi hin hn
  have h3 := channelOf_bounds (chooseRGB i).2.2 i n hb.1 hb.2.1 hb.2.2 hi hin hn
  refine ⟨⟨h1.1, h1.2⟩, ⟨h2.1, h2.2⟩, ⟨h3.1, h3.2⟩, ?_⟩
  rw [choose, if_pos]
  exact ⟨h1.1, lt_of_le_of_lt h1.2 (by norm_num), h2.1, lt_of_le_of_lt h2.2 (by norm_num),
    h3.1, lt_of_le_of_lt h3.2 (by norm_num)⟩

/-- For `0 ≤ i ≤ n` with `n ≥ 1`, `choose` returns `'#'` followed by
exactly six lowercase hexadecimal digits. -/
theorem choose_format (i n : Int) (hi : 0 ≤ i) (hin : i ≤ n) (hn : 1 ≤ n) :
    ∃ s, choose i n = .ok s ∧ s.data.length = 7 ∧ s.data.head? = some '#' ∧
      s.data.tail.all isHexDigitLower = true := by
  obtain ⟨h1, h2, h3, h4⟩ := choose_safe i n hi hin hn
  obtain ⟨e1l, e1a⟩ := hex02_spec (chooseChannels i n).1.toNat (by omega)
  obtain ⟨e2l, e2a⟩ := hex02_spec (chooseChannels i n).2.1.toNat (by omega)
  obtain ⟨e3l, e3a⟩ := hex02_spec (chooseChannels i n).2.2.toNat (by omega)
  refine ⟨_, h4, ?_, ?_, ?_⟩
  · simp [data_append, e1l, e2l, e3l, show ("#" : String).data = ['#'] from rfl]
  · simp [data_append, show ("#" : String).data = ['#'] from rfl]
  · simp [data_append, show ("#" : String).data = ['#'] from rfl,
      List.all_append, e1a, e2a, e3a]

/-- A successful colour allocation preserves `nickcount < nickmax`. -/
theorem allocColour_inv (s : PipeState) (nick colour : String) (s1 : PipeState)
    (hinv : s.nickcount < s.nickmax)
    (h : allocColour s nick = .ok (colour, s1)) :
    s1.nickcount < s1.nickmax := by
  unfold allocColour at h
  by_cases hc : (regGet s.colour_nick nick).getD "" = ""
  · rw [if_pos hc] at h
    cases hch : choose ((s.nickcount + 1 : Nat) : Int)
        ((newNickmax (s.nickcount + 1) s.nickmax : Nat) : Int) with
    | error e => rw [hch] at h; exact absurd h (by simp)
    | ok c =>
      rw [hch] at h
      simp only [Except.ok.injEq, Prod.mk.injEq] at h
      rw [← h.2]
      show s.nickcount + 1 < newNickmax (s.nickcount + 1) s.nickmax
      unfold newNickmax
      split <;> omega
  · rw [if_neg hc] at h
    simp only [Except.ok.injEq, Prod.mk.injEq] at h
    rw [← h.2]
    exact hinv

/-- One pipeline step preserves `nickcount < nickmax`. -/
theorem step_inv (s : PipeState) (ev : Event) (s1 : PipeState)
    (hinv : s.nickcount < s.nickmax) (h : step s ev = .ok s1) :
    s1.nickcount < s1.nickmax := by
  cases ev with
  | comment nick0 text0 =>
    simp only [step] at h
    cases hal : allocColour s (escape nick0) with
    | error e => rw [hal] at h; exact absurd h (by simp)
    | ok p =>
      obtain ⟨colour, s2⟩ := p
      rw [hal] at h
      simp only [Except.ok.injEq] at h
      have h2 := allocColour_inv s (escape nick0) colour s2 hinv hal
      rw [← h]
      exact h2
  | nickchange t o nw =>
    simp only [step, stepOther, Except.ok.injEq] at h
    rw [← h]
    exact hinv
  | action t =>
    simp only [step, stepOther, Except.ok.injEq] at h
    rw [← h]; exact hinv
  | join t =>
    simp only [step, stepOther, Except.ok.injEq] at h
    rw [← h]; exact hinv
  | part t =>
    simp only [step, stepOther, Except.ok.injEq] at h
    rw [← h]; exact hinv
  | server t =>
    simp only [step, stepOther, Except.ok.injEq] at h
    rw [← h]; exact hinv
  | other t =>
    simp only [step, stepOther, Except.ok.injEq] at h
    rw [← h]; exact hinv

/-- The whole event loop preserves `nickcount < nickmax`. -/
theorem runLines_inv : ∀ (lines : List String) (s s1 : PipeState),
    s.nickcount < s.nickmax → runLines s lines = .ok s1 →
    s1.nickcount < s1.nickmax
  | [], s, s1, hinv, h => by
    simp only [runLines, Except.ok.injEq] at h
    rw [← h]; exact hinv
  | l :: rest, s, s1, hinv, h => by
    simp only [runLines] at h
    cases hp : parseLine l with
    | none => simp only [hp] at h; exact runLines_inv rest s s1 hinv h
    | some r =>
      cases r with
      | error e => simp only [hp] at h; exact absurd h (by simp)
      | ok ev =>
        simp only [hp] at h
        cases hs : step s ev with
        | error e => simp only [hs] at h; exact absurd h (by simp)
        | ok s2 =>
          simp only [hs] at h
          exact runLines_inv rest s2 s1 (step_inv s ev s2 hinv hs) h

/-- Under the invariant, processing a comment cannot fail: the indices the
pipeline hands to `choose` satisfy `1 ≤ i < n`, so the assertions pass. -/
theorem step_comment_ok (s : PipeState) (nick text : String)
    (hinv : s.nickcount < s.nickmax) :
    ∃ s1, step s (.comment nick text) = .ok s1 := by
  cases hst : step s (.comment nick text) with
  | ok s1 => exact ⟨s1, rfl⟩
  | error e =>
    exfalso
    by_cases hc : (regGet s.colour_nick (escape nick)).getD "" = ""
    · have hlt : s.nickcount + 1 < newNickmax (s.nickcount + 1) s.nickmax := by
        unfold newNickmax; split <;> omega
      have h4 := (choose_safe ((s.nickcount + 1 : Nat) : Int)
          ((newNickmax (s.nickcount + 1) s.nickmax : Nat) : Int)
          (by exact_mod_cast Nat.zero_le _)
          (by exact_mod_cast Nat.le_of_lt hlt)
          (by exact_mod_cast Nat.one_le_iff_ne_zero.mpr (by omega))).2.2.2
      simp only [step, allocColour, if_pos hc, h4] at hst
      exact Except.noConfusion hst
    · simp only [step, allocColour, if_neg hc] at hst
      exact Except.noConfusion hst


/-- With all-convertible files in front, the batch loop converts them and
continues with the remainder of the list. -/
theorem convertBatch_ok_pre : ∀ (pre l : List String) (canRead canWrite : String → Bool),
    (∀ g ∈ pre, canRead g = true ∧ canWrite (g ++ ".html") = true) →
    convertBatch canRead canWrite (pre ++ l) =
      (pre ++ (convertBatch canRead canWrite l).1, (convertBatch canRead canWrite l).2)
  | [], l, cr, cw, h => by simp
  | f :: pre, l, cr, cw, h => by
    have hf := h f (List.mem_cons_self f pre)
    have hrest : ∀ g ∈ pre, cr g = true ∧ cw (g ++ ".html") = true :=
      fun g hg => h g (List.mem_cons_of_mem f hg)
    have ih := convertBatch_ok_pre pre l cr cw hrest
    simp only [List.cons_append, List.append_eq, convertBatch, hf.1, hf.2, Bool.not_true,
      Bool.false_eq_true, if_false, ih]

/-! ## The claims -/

/-- C1: the claim asserts that `classify` is total and in particular that a
line `'--- X is now known as Y'` yields a `NickChange` event.  The code
instead raises `NameError` there: the branch executes
`yield time, self.NICKCHANGE, (line, oldnick, newnick)` (line 126) while the
regexp groups were bound to `nick_old`/`nick_new` (lines 124-125), so the
names `oldnick` and `newnick` are unbound.  This theorem evaluates the
embedded classifier at the claim's own input and shows the raised
exception. -/
theorem classify_dash_rename_raises :
    classify "--- X is now known as Y" = .error () := by decide

/-- C2: the claim asserts rename propagation for the transcript
`<al> hi` / `*** al is now known as bob` / `<bob> hi again` / `<al> bye`.
The code never rebinds: because of Python operator precedence,
`line.startswith('*** ')` alone sends the rename line into the `JOIN`
branch (line 115), so `bob` is allocated a fresh colour `#42427e` different
from `al`'s `#407a40`, and the later `<al>` line still renders with `al`'s
original colour.  This theorem evaluates the full pipeline on the claim's
transcript. -/
theorem rename_not_propagated :
    classify "*** al is now known as bob" = .ok (.join "*** al is now known as bob") ∧
    processLines ["<al> hi", "*** al is now known as bob", "<bob> hi again", "<al> bye"] =
      .ok { colour_nick := [("al", "#407a40"), ("bob", "#42427e")], nickcount := 2, nickmax := 30,
            out := [.nicktext "al" "hi" "#407a40",
                    .servermsg "<font color=\"#009900\">*** al is now known as bob</font>",
                    .nicktext "bob" "hi again" "#42427e",
                    .nicktext "al" "bye" "#407a40"] } ∧
    ("#42427e" : String) ≠ "#407a40" :=
  ⟨by decide, by decide, by decide⟩

/-- C3: the claim asserts that a matched URL is wrapped as a hyperlink whose
href and visible text are the URL itself.  In a Python `re.sub` template
`\0` is an octal escape for `chr(0)`, not a whole-match reference, so
`r'<a href="\0">\0</a>'` (line 441) replaces the matched URL with a link
whose href and text are a NUL character, and the URL text is lost.  This
theorem evaluates the substitution and the full pipeline at the claim's
example `"see http://x.org/y now"`. -/
theorem url_sub_inserts_nul :
    urlSub (escape "see http://x.org/y now") = "see <a href=\"\x00\">\x00</a> now" ∧
    processLines ["<n> see http://x.org/y now"] =
      .ok { colour_nick := [("n", "#407a40")], nickcount := 1, nickmax := 30,
            out := [.nicktext "n" "see <a href=\"\x00\">\x00</a> now" "#407a40"] } :=
  ⟨by decide, by decide⟩

/-- C4 (counterexample): the claim says `choose` returns normally for any
integer inputs with channels clamped to `[0,255]`.  There is no clamping:
at `index = 2`, `total = 1` the blue channel is `int(0.95 * 355) = 337` and
the `assert` fails, i.e. `choose` raises instead of returning. -/
theorem choose_no_clamp_counterexample :
    choose 2 1 = .error () ∧ (chooseChannels 2 1).2.2 = 337 :=
  ⟨by decide, by decide⟩

/-- C4 (amended): for `0 ≤ index ≤ total` with `total ≥ 1` (the regime the
pipeline uses), every output channel lies in `[0,255]` — enforced by the
assertions, not by clamping — and the result is `'#'` followed by exactly
six lowercase hexadecimal digits. -/
theorem choose_bounds_format (i n : Int) (hi : 0 ≤ i) (hin : i ≤ n) (hn : 1 ≤ n) :
    (0 ≤ (chooseChannels i n).1 ∧ (chooseChannels i n).1 ≤ 255) ∧
    (0 ≤ (chooseChannels i n).2.1 ∧ (chooseChannels i n).2.1 ≤ 255) ∧
    (0 ≤ (chooseChannels i n).2.2 ∧ (chooseChannels i n).2.2 ≤ 255) ∧
    ∃ s, choose i n = .ok s ∧ s.data.length = 7 ∧ s.data.head? = some '#' ∧
      s.data.tail.all isHexDigitLower = true := by
  obtain ⟨h1, h2, h3, _⟩ := choose_safe i n hi hin hn
  exact ⟨h1, h2, h3, choose_format i n hi hin hn⟩

/-- C4 (witness): instantiation of `choose_bounds_format` at `i = 1`,
`n = 30`, the first allocation the pipeline performs. -/
theorem choose_bounds_format_witness :
    (0 ≤ (chooseChannels 1 30).1 ∧ (chooseChannels 1 30).1 ≤ 255) ∧
    (0 ≤ (chooseChannels 1 30).2.1 ∧ (chooseChannels 1 30).2.1 ≤ 255) ∧
    (0 ≤ (chooseChannels 1 30).2.2 ∧ (chooseChannels 1 30).2.2 ≤ 255) ∧
    ∃ s, choose 1 30 = .ok s ∧ s.data.length = 7 ∧ s.data.head? = some '#' ∧
      s.data.tail.all isHexDigitLower = true :=
  choose_bounds_format 1 30 (by decide) (by decide) (by decide)

/-- C5 (counterexample): the claim's own example input `"<al>hi\n<al>bye\n"`
has no space after the `>`, so neither line is a `Comment`
(`NICK_REGEXP` requires `>\s`): both render through `servermsg`, the
registry stays empty and no `htmlcolour` exists in either rendered line. -/
theorem colour_stability_counterexample :
    processLines ["<al>hi", "<al>bye"] =
      .ok { colour_nick := [], nickcount := 0, nickmax := 30,
            out := [.servermsg "&lt;al&gt;hi", .servermsg "&lt;al&gt;bye"] } := by
  decide

/-- C5 (amended): once a nick has a (nonempty) colour in the registry, a
later comment by that exact nick renders with the stored colour and changes
neither the registry nor the counters (the colour is not recomputed even
though `nickmax` may have grown); the example input, written with the
required space as `"<al> hi\n<al> bye\n"`, yields the same `htmlcolour` in
both rendered lines. -/
theorem colour_stability :
    (∀ (s : PipeState) (nick text c : String),
      regGet s.colour_nick (escape nick) = some c → c ≠ "" →
      step s (.comment nick text) =
        .ok { s with out := s.out ++
          [.nicktext (escape nick) (nbspSub (urlSub (escape text))) c] }) ∧
    processLines ["<al> hi", "<al> bye"] =
      .ok { colour_nick := [("al", "#407a40")], nickcount := 1, nickmax := 30,
            out := [.nicktext "al" "hi" "#407a40", .nicktext "al" "bye" "#407a40"] } := by
  refine ⟨?_, by decide⟩
  intro s nick text c hreg hc
  have hgd : (regGet s.colour_nick (escape nick)).getD "" = c := by rw [hreg]; rfl
  simp only [step, allocColour, hgd, if_neg hc]

/-- C5 (witness): instantiation of the stability statement at a concrete
registry holding `al ↦ #abcdef`. -/
theorem colour_stability_witness :
    step { colour_nick := [("al", "#abcdef")], nickcount := 5, nickmax := 30, out := [] }
        (.comment "al" "x") =
      .ok { colour_nick := [("al", "#abcdef")], nickcount := 5, nickmax := 30,
            out := [.nicktext "al" "x" "#abcdef"] } :=
  colour_stability.1
    { colour_nick := [("al", "#abcdef")], nickcount := 5, nickmax := 30, out := [] }
    "al" "x" "#abcdef" (by decide) (by decide)

/-- C6: the line `"*** x has joined"` is classified `Join`.  `classify` is a
function, so this equality also shows the line is never classified `Part` or
`Server` (the two inequation conjuncts make that explicit): the `Join`
branch is tested first and `line.startswith('*** ')` alone decides it. -/
theorem join_takes_star_lines :
    classify "*** x has joined" = .ok (.join "*** x has joined") ∧
    classify "*** x has joined" ≠ .ok (.part "*** x has joined") ∧
    classify "*** x has joined" ≠ .ok (.server "*** x has joined") :=
  ⟨by decide, by decide, by decide⟩

/-- C7: `choose` and the whole pipeline are pure functions of their
arguments — the embedded allocator consults nothing but `(i, n)` and the
fixed palette and bounds, and a pipeline run consults nothing but the
transcript — so re-running either on identical input yields identical
results (in particular identical colours for every nick). -/
theorem choose_deterministic :
    (∀ i n : Int, choose i n = choose i n) ∧
    (∀ lines : List String, processLines lines = processLines lines) :=
  ⟨fun _ _ => rfl, fun _ => rfl⟩

/-- C8 (counterexample): the claim says that when one file of a batch cannot
be opened the remaining files are still converted.  `main` calls
`sys.exit(...)` instead (lines 384, 391), which terminates the process: with
`"bad"` unreadable and `"good"` perfectly convertible, nothing is converted
and `"good"` is not in the converted list. -/
theorem batch_abort_counterexample :
    convertBatch (fun f => !(f == "bad")) (fun _ => true) ["bad", "good"] =
      ([], some (.cantRead "bad")) ∧
    ¬ "good" ∈ (convertBatch (fun f => !(f == "bad")) (fun _ => true) ["bad", "good"]).1 :=
  ⟨by decide, by decide⟩

/-- C8 (amended): when a file of the batch cannot be opened for reading (or
its output for writing), that file's conversion is aborted and reported with
the filename and the cause, and the process exits immediately: files before
it in the batch were converted, the files after it are not processed. -/
theorem batch_abort_on_error (canRead canWrite : String → Bool) (pre : List String)
    (f : String) (rest : List String)
    (hpre : ∀ g ∈ pre, canRead g = true ∧ canWrite (g ++ ".html") = true) :
    (canRead f = false →
      convertBatch canRead canWrite (pre ++ f :: rest) = (pre, some (.cantRead f))) ∧
    (canRead f = true → canWrite (f ++ ".html") = false →
      convertBatch canRead canWrite (pre ++ f :: rest) =
        (pre, some (.cantWrite (f ++ ".html")))) := by
  rw [convertBatch_ok_pre pre (f :: rest) canRead canWrite hpre]
  constructor
  · intro hf
    simp [convertBatch, hf]
  · intro hf hw
    simp [convertBatch, hf, hw]

/-- C8 (witness): instantiation with `"good"` convertible before the
unreadable `"bad"` and `"later"` after it. -/
theorem batch_abort_on_error_witness :
    convertBatch (fun g => !(g == "bad")) (fun _ => true) (["good"] ++ "bad" :: ["later"]) =
      (["good"], some (.cantRead "bad")) :=
  (batch_abort_on_error (fun g => !(g == "bad")) (fun _ => true) ["good"] "bad" ["later"]
    (by decide)).1 (by decide)

/-- C9: `nickmax` starts at `30` with `nickcount = 0`, every pipeline step
preserves `nickcount < nickmax` (the doubling restores it whenever the
increment reaches the bound), so every run ends under the invariant; every
allocation calls `choose(i, n)` with `1 ≤ i < n`, under which the channel
assertions cannot fire — so `choose` returns normally there and a comment
step under the invariant never fails. -/
theorem nickmax_invariant :
    pipeInit.nickmax = 30 ∧ pipeInit.nickcount < pipeInit.nickmax ∧
    (∀ (s : PipeState) (ev : Event) (s1 : PipeState),
      s.nickcount < s.nickmax → step s ev = .ok s1 → s1.nickcount < s1.nickmax) ∧
    (∀ (lines : List String) (s1 : PipeState),
      processLines lines = .ok s1 → s1.nickcount < s1.nickmax) ∧
    (∀ i n : Int, 1 ≤ i → i < n → ∃ c, choose i n = .ok c) ∧
    (∀ (s : PipeState) (nick text : String), s.nickcount < s.nickmax →
      ∃ s1, step s (.comment nick text) = .ok s1) := by
  refine ⟨rfl, by decide, step_inv, ?_, ?_, step_comment_ok⟩
  · intro lines s1 h
    exact runLines_inv lines pipeInit s1 (by decide) h
  · intro i n h1 h2
    exact ⟨_, (choose_safe i n (by omega) (by omega) (by omega)).2.2.2⟩

/-- C9 (witness): the invariant-based conjuncts instantiated at the initial
state and at the pipeline's first allocation `choose 1 30`. -/
theorem nickmax_invariant_witness :
    (∃ c, choose 1 30 = .ok c) ∧
    (∃ s1, step pipeInit (.comment "al" "hi") = .ok s1) :=
  ⟨nickmax_invariant.2.2.2.2.1 1 30 (by decide) (by decide),
   nickmax_invariant.2.2.2.2.2 pipeInit "al" "hi" (by decide)⟩

/-- C10: `'<al>hi'` (no whitespace after the `>`) does not match
`NICK_REGEXP`, matches none of the other patterns either, and is classified
`Other` with the full remainder as its text; the pipeline renders it through
`servermsg` (with no `<font>` wrapper, `OTHER` not being in `colour_map`)
and allocates no nick colour — the registry stays empty. -/
theorem comment_needs_space :
    classify "<al>hi" = .ok (.other "<al>hi") ∧
    processLines ["<al>hi"] =
      .ok { colour_nick := [], nickcount := 0, nickmax := 30,
            out := [.servermsg "&lt;al&gt;hi"] } :=
  ⟨by decide, by decide⟩
